import Mathlib

/-!
# Verification of the marathon-simulator core

Shallow embedding of the simulation core of the marathon-simulator
repository, together with theorems settling the specification claims.

Sources embedded (file and symbol names follow the Python source):
* `src/lib/physics.py` — `RunningPhysics`
* `src/lib/pacing_strategy.py` — `PacingStrategy`
* `src/lib/gpx_handler.py` — `GPXHandler` (distance rescaling / resampling)
* `src/lib/course_data.py` — `CourseSegment`
* `src/lib/vdot_handler.py` — `VDOTHandler`

Numbers: Python floats are modelled by exact arithmetic.  Purely
rational computations are embedded over `ℚ` (so concrete instances can be
evaluated); quantities that genuinely involve `sqrt`, `cos` or real powers
(`x ** (2/3)`) are embedded over `ℝ`.  The polynomial/rational part of the
physics is stated once over an arbitrary linear ordered field and
instantiated at both `ℚ` and `ℝ`, with cast lemmas connecting the two.
-/

namespace MarathonSim

/-! ## Physics (`src/lib/physics.py`, class `RunningPhysics`) -/

section GenericPhysics

variable {K : Type} [LinearOrderedField K]

/-- `np.sign`: -1 for negatives, 0 for zero, 1 for positives. -/
def npSign (x : K) : K := if x < 0 then -1 else if x = 0 then 0 else 1

/-- `RunningPhysics.minetti_cost_j_kg_m` (physics.py:18-32):
`Cr = 155.4 i^5 - 30.4 i^4 - 43.3 i^3 + 46.3 i^2 + 19.5 i + 3.6`. -/
def minetti_cost_j_kg_m (i : K) : K :=
  155.4 * i ^ 5 - 30.4 * i ^ 4 - 43.3 * i ^ 3 + 46.3 * i ^ 2 + 19.5 * i + 3.6

/-- `RunningPhysics.RHO_AIR` (physics.py:12). -/
def RHO_AIR : K := 1.225

/-- `RunningPhysics.DRAG_COEFF` (physics.py:13). -/
def DRAG_COEFF : K := 0.9

/-- `RunningPhysics.calculate_drag_power_watts` (physics.py:34-67):
signed drag force `0.5 ρ Cd A v_rel^2 sign(v_rel)` times ground speed. -/
def calculate_drag_power_watts (velocity wind_velocity_parallel frontal_area : K) : K :=
  let v_rel := velocity - wind_velocity_parallel
  let force_drag := 0.5 * RHO_AIR * DRAG_COEFF * frontal_area * v_rel ^ 2 * npSign v_rel
  force_drag * velocity

/-- `RunningPhysics.mechanical_to_metabolic_power` (physics.py:69-75),
with the default `efficiency=0.25`. -/
def mechanical_to_metabolic_power (mech_power : K) : K := mech_power / 0.25

/-- Body of `RunningPhysics.calculate_total_power` (physics.py:77-115) once the
mass-scaled effective frontal area has been computed: `0` for `velocity ≤ 0`,
otherwise Minetti base cost times mass times speed plus metabolic drag power. -/
def total_power_with_area (velocity gradient wind_speed mass effective_area : K) : K :=
  if velocity ≤ 0 then 0
  else
    minetti_cost_j_kg_m gradient * mass * velocity +
      mechanical_to_metabolic_power
        (calculate_drag_power_watts velocity wind_speed effective_area)

end GenericPhysics

/-- `RunningPhysics.calculate_total_power` (physics.py:77-115): the effective
area scales the given frontal area by `(mass/65) ** (2/3)` (physics.py:110). -/
noncomputable def calculate_total_power (velocity gradient wind_speed mass frontal_area : ℝ) :
    ℝ :=
  total_power_with_area velocity gradient wind_speed mass
    (frontal_area * (mass / 65) ^ ((2 : ℝ) / 3))

/-- Result of `RunningPhysics.solve_speed_for_power` (physics.py:117-138).
`value v` is a branch that returns the number `v` directly; `bracketRoot`
stands for the value `brentq` computes numerically inside the bracket. -/
inductive SolveOutcome where
  | value (v : ℝ)
  | bracketRoot

/-- `RunningPhysics.solve_speed_for_power` (physics.py:117-138), branch
structure.  `func v = calculate_total_power v .. - target_power`; the code
returns `0.1` when `func 0.1 > 0`; otherwise it calls
`brentq(func, 0.1, 10.0)`, which raises `ValueError` exactly when
`func 0.1` and `func 10` have the same sign (`func 0.1 * func 10 > 0`),
an error the code catches and converts to `0.0`. -/
noncomputable def solve_speed_for_power
    (target_power gradient wind_speed mass frontal_area : ℝ) : SolveOutcome :=
  let func : ℝ → ℝ := fun v =>
    calculate_total_power v gradient wind_speed mass frontal_area - target_power
  if 0 < func 0.1 then .value 0.1
  else if 0 < func 0.1 * func 10 then .value 0
  else .bracketRoot

/-- `RunningPhysics.vdot_to_flat_velocity` (physics.py:140-164): positive root
of `0.000104 v^2 + 0.182258 v - (vdot + 4.60) = 0` (v in m/min), over 60. -/
noncomputable def vdot_to_flat_velocity (vdot : ℝ) : ℝ :=
  let a : ℝ := 0.000104
  let b : ℝ := 0.182258
  let c : ℝ := -(vdot + 4.60)
  let v_m_min := (-b + Real.sqrt (b ^ 2 - 4 * a * c)) / (2 * a)
  v_m_min / 60

/-! ### Cast lemmas `ℚ → ℝ` for the rational part of the physics -/

theorem npSign_cast (q : ℚ) : ((npSign q : ℚ) : ℝ) = npSign (q : ℝ) := by
  rcases lt_trichotomy q 0 with h | h | h
  · rw [npSign, if_pos h, npSign, if_pos (by exact_mod_cast h)]
    norm_num
  · rw [npSign, if_neg (by simp [h]), if_pos h, npSign, h]
    norm_num
  · rw [npSign, if_neg (not_lt.2 h.le), if_neg h.ne.symm,
      npSign, if_neg (by exact_mod_cast not_lt.2 h.le),
      if_neg (by exact_mod_cast h.ne.symm)]
    norm_num

theorem minetti_cast (q : ℚ) :
    ((minetti_cost_j_kg_m q : ℚ) : ℝ) = minetti_cost_j_kg_m (q : ℝ) := by
  simp only [minetti_cost_j_kg_m]
  push_cast
  norm_num

theorem drag_cast (v w a : ℚ) :
    ((calculate_drag_power_watts v w a : ℚ) : ℝ) =
      calculate_drag_power_watts (v : ℝ) (w : ℝ) (a : ℝ) := by
  simp only [calculate_drag_power_watts, RHO_AIR, DRAG_COEFF]
  push_cast [npSign_cast]
  norm_num

theorem total_power_with_area_cast (v g w m a : ℚ) :
    ((total_power_with_area v g w m a : ℚ) : ℝ) =
      total_power_with_area (v : ℝ) (g : ℝ) (w : ℝ) (m : ℝ) (a : ℝ) := by
  by_cases hv : v ≤ 0
  · rw [total_power_with_area, if_pos hv,
      total_power_with_area, if_pos (by exact_mod_cast hv)]
    norm_num
  · rw [total_power_with_area, if_neg hv,
      total_power_with_area, if_neg (by exact_mod_cast hv)]
    push_cast [minetti_cast, drag_cast, mechanical_to_metabolic_power]
    norm_num

/-- At the baseline mass 65 kg the area scaling `(mass/65) ** (2/3)` is 1, so
`calculate_total_power` agrees with the rational computation. -/
theorem calculate_total_power_rat (v g w : ℚ) :
    calculate_total_power (v : ℝ) (g : ℝ) (w : ℝ) 65 0.4 =
      ((total_power_with_area v g w 65 0.4 : ℚ) : ℝ) := by
  rw [calculate_total_power, total_power_with_area_cast]
  norm_num

/-! ## Pacing strategy (`src/lib/pacing_strategy.py`, class `PacingStrategy`) -/

/-- One row of the dataframe produced by
`CourseData.sample_at_interval_meters` (course_data.py:84-142): the
attributes `generate_pace_table` reads from each sample. -/
structure Sample where
  km : ℚ
  gradient : ℚ
  bearing : ℚ
  wind_exposed : Bool
  segment_name : String

/-- Split-strategy multiplier (pacing_strategy.py:51-58): linear ramp
`1.05 → 0.95` for `"positive"`, `0.95 → 1.05` for `"negative"`, constant 1
otherwise, over `total_dist_km = 42.195`. -/
def split_factor (pacing_preference : String) (km : ℚ) : ℚ :=
  if pacing_preference = "positive" then 1.05 - 0.10 * (km / 42.195)
  else if pacing_preference = "negative" then 0.95 + 0.10 * (km / 42.195)
  else 1

/-- Hill-strategy slope (pacing_strategy.py:68-70):
`K = (hill_preference/100 - 1) / 0.05`. -/
def k_factor (hill_preference : ℚ) : ℚ := (hill_preference / 100 - 1) / 0.05

/-- Hill multiplier per sample (pacing_strategy.py:79): `1 + gradient * K`. -/
def hill_factor (hill_preference gradient : ℚ) : ℚ :=
  1 + gradient * k_factor hill_preference

/-- `raw_multipliers = split_factors * hill_factors`
(pacing_strategy.py:82). -/
def raw_multipliers (pacing_preference : String) (hill_preference : ℚ)
    (samples : List Sample) : List ℚ :=
  samples.map fun s => split_factor pacing_preference s.km *
    hill_factor hill_preference s.gradient

/-- `np.mean` of a list: sum over length (0 for the empty list, standing in
for numpy's nan). -/
def npMean (l : List ℚ) : ℚ := l.sum / l.length

/-- `final_multipliers = raw_multipliers / np.mean(raw_multipliers)`
(pacing_strategy.py:86-87). -/
def final_multipliers (pacing_preference : String) (hill_preference : ℚ)
    (samples : List Sample) : List ℚ :=
  let raw := raw_multipliers pacing_preference hill_preference samples
  raw.map (· / npMean raw)

/-- The state `PacingStrategy.__init__` (pacing_strategy.py:7-33) stores. -/
structure PacingStrategy where
  mass : ℚ
  vdot : ℚ
  wind_speed_ms : ℚ
  wind_dir_degrees : ℚ
  hill_preference : ℚ
  pacing_preference : String
  base_speed_ms : ℝ
  target_power : ℝ

/-- Baseline-speed resolution in `PacingStrategy.__init__`
(pacing_strategy.py:19-26).  Python tests `if target_time_sec:` — truthiness —
so `None` and `0` both take the fallback branch
`vdot_to_flat_velocity(vdot) * 0.82`; any other value yields
`42195.0 / target_time_sec`. -/
noncomputable def base_speed_of (vdot : ℚ) (target_time_sec : Option ℚ) : ℝ :=
  match target_time_sec with
  | some t => if t = 0 then vdot_to_flat_velocity (vdot : ℝ) * 0.82
              else (42195.0 : ℝ) / (t : ℝ)
  | none => vdot_to_flat_velocity (vdot : ℝ) * 0.82

/-- `PacingStrategy.__init__` (pacing_strategy.py:7-33).  Total: the source
has no raise statement; `target_power` is the flat no-wind power at the
resolved baseline speed with the default frontal area 0.4. -/
noncomputable def pacing_strategy_init (mass_kg vdot wind_speed_ms wind_dir_degrees : ℚ)
    (target_time_sec : Option ℚ) (hill_preference : ℚ) (pacing_preference : String) :
    PacingStrategy :=
  let bs := base_speed_of vdot target_time_sec
  { mass := mass_kg
    vdot := vdot
    wind_speed_ms := wind_speed_ms
    wind_dir_degrees := wind_dir_degrees
    hill_preference := hill_preference
    pacing_preference := pacing_preference
    base_speed_ms := bs
    target_power := calculate_total_power bs 0 0 (mass_kg : ℝ) 0.4 }

/-- `np.radians`: degrees to radians. -/
noncomputable def radians (deg : ℝ) : ℝ := deg * Real.pi / 180

/-- Effective parallel wind for one sample (pacing_strategy.py:96-100):
`wind_parallel = wind_speed * cos(radians(wind_dir + 180 - bearing))`,
used only when the sample is wind-exposed. -/
noncomputable def effective_wind (wind_speed_ms wind_dir_degrees bearing : ℝ)
    (wind_exposed : Bool) : ℝ :=
  let wind_vector_dir := wind_dir_degrees + 180
  let wind_rad := radians (wind_vector_dir - bearing)
  let wind_parallel := wind_speed_ms * Real.cos wind_rad
  if wind_exposed then wind_parallel else 0

/-- Downhill damping (pacing_strategy.py:102-105): gradients below zero are
multiplied by 0.6 before the speed solve. -/
def calc_gradient (gradient : ℚ) : ℚ :=
  if gradient < 0 then gradient * 0.6 else gradient

/-- The arguments `generate_pace_table` passes to
`RunningPhysics.solve_speed_for_power` for one sample
(pacing_strategy.py:94-113). -/
structure SolveCall where
  target_power : ℝ
  gradient : ℝ
  wind_speed : ℝ
  mass : ℝ

/-- Per-sample solver call made in the loop of `generate_pace_table`
(pacing_strategy.py:93-113): power is the strategy's target power scaled by
the sample's final multiplier; the gradient is the damped one; the wind is
the effective parallel wind. -/
noncomputable def solver_call_for (st : PacingStrategy) (mult : ℚ) (s : Sample) :
    SolveCall :=
  { target_power := st.target_power * (mult : ℝ)
    gradient := (calc_gradient s.gradient : ℝ)
    wind_speed := effective_wind (st.wind_speed_ms : ℝ) (st.wind_dir_degrees : ℝ)
      (s.bearing : ℝ) s.wind_exposed
    mass := (st.mass : ℝ) }

/-- All solver calls of one `generate_pace_table` run, in sample order
(pacing_strategy.py:89-113). -/
noncomputable def solver_calls (st : PacingStrategy) (samples : List Sample) :
    List SolveCall :=
  List.zipWith (solver_call_for st)
    (final_multipliers st.pacing_preference st.hill_preference samples) samples

/-- The fields of the `results.append` dict (pacing_strategy.py:124-132) that
do not depend on the numeric root: the emitted row reports the sample's raw
(undamped) gradient. -/
structure PaceRowStatic where
  km : ℚ
  gradient : ℚ
  segment_name : String

/-- Static part of the emitted pace row (pacing_strategy.py:124-132). -/
def pace_row_static (s : Sample) : PaceRowStatic :=
  { km := s.km, gradient := s.gradient, segment_name := s.segment_name }

/-! ## Course construction (`src/lib/gpx_handler.py`, `src/lib/course_data.py`)

The haversine distances themselves involve transcendental functions; the
claims about this file concern what happens to the cumulative-distance
array once measured, so the embedding takes the raw cumulative distances
(`raw_cum_dist`, gpx_handler.py:52-57) as input. -/

/-- Distance normalisation (gpx_handler.py:59-64): when the last cumulative
distance exceeds 40000 m, every cumulative distance is scaled by
`42195 / total_raw_dist`. -/
def scaled_cum_dist (raw_cum_dist : List ℚ) : List ℚ :=
  let total_raw_dist := (raw_cum_dist.getLast?).getD 0
  if 40000 < total_raw_dist then
    raw_cum_dist.map (· * (42195 / total_raw_dist))
  else raw_cum_dist

/-- `np.arange(0, stop, 5.0)` (gpx_handler.py:67): the points `0, 5, 10, …`
strictly below `stop`; there are `⌈stop/5⌉` of them (none for `stop ≤ 0`). -/
def arange5 (stop : ℚ) : List ℚ :=
  (List.range (Int.ceil (stop / 5)).toNat).map fun i : ℕ => 5 * (i : ℚ)

/-- The uniform 5 m grid `to_course_data` iterates over: the resampled
`distance_m` column (gpx_handler.py:66-79, 142). -/
def resampled_grid (raw_cum_dist : List ℚ) : List ℚ :=
  arange5 (((scaled_cum_dist raw_cum_dist).getLast?).getD 0)

/-- Segment boundaries `(start_km, end_km)` built by `to_course_data`
(gpx_handler.py:145-150): `start_km = distance_m / 1000`, `end_km` is the
next sample's `start_km`, and for the last sample `start_km + 0.005`. -/
def segment_bounds : List ℚ → List (ℚ × ℚ)
  | [] => []
  | [d] => [(d / 1000, d / 1000 + 0.005)]
  | d :: d2 :: rest => (d / 1000, d2 / 1000) :: segment_bounds (d2 :: rest)

/-- Total course distance in km: the `end_km` of the last generated segment
(what `debug_data.py` prints as the course length). -/
def course_total_km (raw_cum_dist : List ℚ) : ℚ :=
  ((segment_bounds (resampled_grid raw_cum_dist)).getLast?.map Prod.snd).getD 0

/-- The fields of the `CourseSegment` dataclass as declared in
course_data.py:6-13, in order.  A Python dataclass generates an `__init__`
accepting exactly these keyword arguments. -/
def courseSegmentFields : List String :=
  ["start_km", "end_km", "gradient", "bearing_degrees",
   "is_exposed_to_wind", "description"]

/-- The keyword arguments `GPXHandler.to_course_data` passes to the
`CourseSegment` constructor (gpx_handler.py:158-167). -/
def toCourseDataKwargs : List String :=
  ["start_km", "end_km", "gradient", "bearing_degrees",
   "is_exposed_to_wind", "description", "start_lat", "start_lon"]

/-- The `CourseSegment` dataclass (course_data.py:6-17), as declared: it has
no anchor-position fields. -/
structure CourseSegment where
  start_km : ℚ
  end_km : ℚ
  gradient : ℚ
  bearing_degrees : ℚ
  is_exposed_to_wind : Bool := false
  description : String := ""

/-- `CourseSegment.distance` (course_data.py:15-17). -/
def CourseSegment.distance (s : CourseSegment) : ℚ := s.end_km - s.start_km

/-! ## VDOT table interpolation (`src/lib/vdot_handler.py`)

`get_time_for_exact_vdot` and `get_exact_vdot_from_time` work on the
numeric `(vdots, seconds)` arrays produced by `_parse_all_seconds`
(vdot_handler.py:52-60); the embedding takes that parsed table as a list of
`(vdot, seconds)` pairs. -/

/-- Insertion step of a stable sort-by-key, the order `np.argsort` produces
on distinct keys (vdot_handler.py:70-72, 86-89). -/
def insertOn {α : Type} (key : α → ℚ) (a : α) : List α → List α
  | [] => [a]
  | b :: t => if key a ≤ key b then a :: b :: t else b :: insertOn key a t

/-- Sort a list by a rational key (models `np.argsort` ordering). -/
def sortOn {α : Type} (key : α → ℚ) : List α → List α
  | [] => []
  | a :: t => insertOn key a (sortOn key t)

/-- `np.interp(x, xp, fp)` on a list of `(xp, fp)` pairs with `xp`
increasing: clamp to the first value left of the range, linear interpolation
inside, the last value right of the range (0 on the empty table, where numpy
raises). -/
def interpP (x : ℚ) : List (ℚ × ℚ) → ℚ
  | [] => 0
  | [p] => p.2
  | p :: q :: rest =>
    if x ≤ p.1 then p.2
    else if x ≤ q.1 then p.2 + (q.2 - p.2) * (x - p.1) / (q.1 - p.1)
    else interpP x (q :: rest)

/-- `VDOTHandler.get_time_for_exact_vdot` (vdot_handler.py:62-77): sort the
table by VDOT ascending, then `np.interp` the time over the VDOT axis. -/
def get_time_for_exact_vdot (table : List (ℚ × ℚ)) (vdot_float : ℚ) : ℚ :=
  interpP vdot_float (sortOn Prod.fst table)

/-- `VDOTHandler.get_exact_vdot_from_time` (vdot_handler.py:79-91): sort by
seconds ascending, then `np.interp` the VDOT over the time axis. -/
def get_exact_vdot_from_time (table : List (ℚ × ℚ)) (target_seconds : ℚ) : ℚ :=
  interpP target_seconds (sortOn Prod.fst (table.map Prod.swap))

/-! ## Time-string parsing (`src/lib/vdot_handler.py:93-104`, `get_closest_vdot`) -/

/-- Python `str.strip()` on a character list (ASCII whitespace). -/
def pyStrip (s : List Char) : List Char :=
  ((s.dropWhile Char.isWhitespace).reverse.dropWhile Char.isWhitespace).reverse

/-- Python `str.split(sep)` for a one-character separator: no collapsing of
adjacent separators, the empty string yields `[""]`. -/
def splitCh (sep : Char) : List Char → List (List Char)
  | [] => [[]]
  | c :: rest =>
    let r := splitCh sep rest
    if c = sep then [] :: r
    else
      match r with
      | [] => [[c]]
      | h :: t => (c :: h) :: t

/-- Digit-string value: `some` of the decimal value when the string is
nonempty and all digits, else `none`. -/
def digitsToNat (ds : List Char) : Option ℕ :=
  if ds ≠ [] ∧ ds.all Char.isDigit then
    some (ds.foldl (fun n c => 10 * n + (c.toNat - Char.toNat '0')) 0)
  else none

/-- Python `int(str)`: optional surrounding whitespace, optional sign, at
least one digit; `none` models the `ValueError` the `except` branch catches
(Python underscore digit grouping is not modelled). -/
def pyInt (s : List Char) : Option ℤ :=
  match pyStrip s with
  | '-' :: ds => (digitsToNat ds).map fun n => -(n : ℤ)
  | '+' :: ds => (digitsToNat ds).map fun n => (n : ℤ)
  | ds => (digitsToNat ds).map fun n => (n : ℤ)

/-- `VDOTHandler._time_str_to_seconds` (vdot_handler.py:93-104): strip, split
on `:`; three parts parse as `h*3600 + m*60 + s`, two parts as `m*60 + s`;
any other field count, or any part `int()` rejects, yields 0. -/
def _time_str_to_seconds (t_str : String) : ℤ :=
  match splitCh ':' (pyStrip t_str.data) with
  | [a, b, c] =>
    match pyInt a, pyInt b, pyInt c with
    | some h, some m, some s => h * 3600 + m * 60 + s
    | _, _, _ => 0
  | [a, b] =>
    match pyInt a, pyInt b with
    | some m, some s => m * 60 + s
    | _, _ => 0
  | _ => 0

/-- Whether a string parses as `h:mm:ss` or `m:ss` (field count right and
every field accepted by `int()`). -/
def parsesAsTime (s : String) : Bool :=
  match splitCh ':' (pyStrip s.data) with
  | [a, b, c] => (pyInt a).isSome && (pyInt b).isSome && (pyInt c).isSome
  | [a, b] => (pyInt a).isSome && (pyInt b).isSome
  | _ => false

/-- First index of the minimum (pandas `Series.idxmin` on an integer
series), accumulator form. -/
def idxminAux : List ℤ → ℕ → ℕ → ℤ → ℕ
  | [], _, best_i, _ => best_i
  | a :: t, i, best_i, best_v =>
    if a < best_v then idxminAux t (i + 1) i a
    else idxminAux t (i + 1) best_i best_v

/-- First index of the minimum of a list (0 on the empty list, where pandas
raises). -/
def idxmin : List ℤ → ℕ
  | [] => 0
  | a :: t => idxminAux t 1 0 a

/-- `VDOTHandler.get_closest_vdot` (vdot_handler.py:39-50): a parsed target
of 0 seconds returns the fallback 45.0 before the table is consulted;
otherwise the VDOT of the row whose parsed marathon time is nearest the
target (first such row). -/
def get_closest_vdot (table : List (ℚ × String)) (target_time_str : String) : ℚ :=
  let target_seconds := _time_str_to_seconds target_time_str
  if target_seconds = 0 then 45.0
  else
    let diffs := table.map fun r => |_time_str_to_seconds r.2 - target_seconds|
    ((table[idxmin diffs]?).map Prod.fst).getD 45.0

/-! ## Claim theorems -/

/-- C2: a construction given a (truthy) target time resolves the baseline
speed to `42195 / target_time_sec`; a construction given no target time
resolves it to `vdot_to_flat_velocity(vdot) * 0.82`. -/
theorem C2_baseline_speed_resolution (mass vdot ws wd hill : ℚ) (pref : String)
    (t : ℚ) (ht : t ≠ 0) :
    (pacing_strategy_init mass vdot ws wd (some t) hill pref).base_speed_ms =
        42195 / (t : ℝ) ∧
    (pacing_strategy_init mass vdot ws wd none hill pref).base_speed_ms =
        vdot_to_flat_velocity (vdot : ℝ) * 0.82 := by
  constructor
  · simp [pacing_strategy_init, base_speed_of, ht]
    norm_num
  · simp [pacing_strategy_init, base_speed_of]

theorem C2_baseline_speed_resolution_witness :
    (12600 : ℚ) ≠ 0 ∧
    ((pacing_strategy_init 60 45 0 0 (some 12600) 100 "even").base_speed_ms =
        42195 / ((12600 : ℚ) : ℝ) ∧
     (pacing_strategy_init 60 45 0 0 none 100 "even").base_speed_ms =
        vdot_to_flat_velocity ((45 : ℚ) : ℝ) * 0.82) :=
  ⟨by norm_num, C2_baseline_speed_resolution 60 45 0 0 100 "even" 12600 (by norm_num)⟩

/-- C4: for a sample with negative gradient the solver receives the damped
gradient `gradient * 0.6` while the emitted row reports the raw gradient;
for a nonnegative gradient the solver receives the raw gradient. -/
theorem C4_downhill_damping (st : PacingStrategy) (mult : ℚ) (s : Sample) :
    (s.gradient < 0 →
      (solver_call_for st mult s).gradient = (s.gradient : ℝ) * 0.6 ∧
      (pace_row_static s).gradient = s.gradient) ∧
    (0 ≤ s.gradient →
      (solver_call_for st mult s).gradient = (s.gradient : ℝ)) := by
  constructor
  · intro h
    refine ⟨?_, rfl⟩
    rw [solver_call_for]
    simp only [calc_gradient, if_pos h]
    push_cast
    norm_num
  · intro h
    rw [solver_call_for]
    simp only [calc_gradient, if_neg (not_lt.2 h)]

theorem C4_downhill_damping_witness :
    ((solver_call_for (pacing_strategy_init 60 45 0 0 none 100 "even") 1
        ⟨10, -0.05, 0, true, ""⟩).gradient = ((-0.05 : ℚ) : ℝ) * 0.6 ∧
      (pace_row_static ⟨10, -0.05, 0, true, ""⟩).gradient = (-0.05 : ℚ)) ∧
    (solver_call_for (pacing_strategy_init 60 45 0 0 none 100 "even") 1
        ⟨11, 0.02, 0, true, ""⟩).gradient = ((0.02 : ℚ) : ℝ) :=
  ⟨(C4_downhill_damping (pacing_strategy_init 60 45 0 0 none 100 "even") 1
      ⟨10, -0.05, 0, true, ""⟩).1 (by norm_num),
   (C4_downhill_damping (pacing_strategy_init 60 45 0 0 none 100 "even") 1
      ⟨11, 0.02, 0, true, ""⟩).2 (by norm_num)⟩

/-- C7: `to_course_data` passes the keyword arguments `start_lat` and
`start_lon` to the `CourseSegment` constructor, but the `CourseSegment`
dataclass declares no such fields, so the generated `__init__` rejects the
call with a `TypeError` on every non-empty track: the code cannot emit the
claimed anchor-carrying segments. -/
theorem C7_anchor_fields_missing :
    "start_lat" ∈ toCourseDataKwargs ∧ "start_lat" ∉ courseSegmentFields ∧
    "start_lon" ∈ toCourseDataKwargs ∧ "start_lon" ∉ courseSegmentFields := by
  refine ⟨?_, ?_, ?_, ?_⟩ <;> decide

/-- C8 counterexample: constructing a strategy with no target time (and the
capability index left at its default 45.0) succeeds and resolves the
baseline from the capability fallback — it does not fail, and no
`MissingTargetError` exists anywhere in the code. -/
theorem C8_counterexample_construction_succeeds :
    (pacing_strategy_init 65 45 0 0 none 100 "even").base_speed_ms =
      vdot_to_flat_velocity ((45 : ℚ) : ℝ) * 0.82 := by
  simp [pacing_strategy_init, base_speed_of]

/-- C8 (amended): `PacingStrategy.__init__` is total — with no target time
it always falls back to the capability index (default 45.0) and produces a
baseline speed; it raises no `MissingTargetError`. -/
theorem C8_construction_never_fails (mass vdot ws wd hill : ℚ) (pref : String) :
    (pacing_strategy_init mass vdot ws wd none hill pref).base_speed_ms =
      vdot_to_flat_velocity (vdot : ℝ) * 0.82 := by
  simp [pacing_strategy_init, base_speed_of]

/-- C10: a string that does not parse as `h:mm:ss` or `m:ss` yields 0
seconds rather than an error, and `get_closest_vdot` maps any target whose
parsed seconds are 0 to the fixed fallback 45.0, whatever the table. -/
theorem C10_unparseable_time_fallback (s : String) (table : List (ℚ × String)) :
    (parsesAsTime s = false → _time_str_to_seconds s = 0) ∧
    (_time_str_to_seconds s = 0 → get_closest_vdot table s = 45) := by
  constructor
  · intro h
    rw [parsesAsTime] at h
    rw [_time_str_to_seconds]
    split
    case _ a b c heq =>
      rw [heq] at h
      cases ha : pyInt a <;> cases hb : pyInt b <;> cases hc : pyInt c <;>
        simp [ha, hb, hc] at h ⊢
    case _ a b heq =>
      rw [heq] at h
      cases ha : pyInt a <;> cases hb : pyInt b <;>
        simp [ha, hb] at h ⊢
    case _ => rfl
  · intro h
    rw [get_closest_vdot]
    simp [h]
    norm_num

theorem C10_unparseable_time_fallback_witness :
    parsesAsTime "soon" = false ∧
    _time_str_to_seconds "soon" = 0 ∧
    get_closest_vdot [(50, "2:58:00"), (45, "3:21:00")] "soon" = 45 := by
  have h1 : parsesAsTime "soon" = false := by decide
  have h2 := (C10_unparseable_time_fallback "soon" [(50, "2:58:00"), (45, "3:21:00")]).1 h1
  exact ⟨h1, h2, (C10_unparseable_time_fallback "soon" [(50, "2:58:00"), (45, "3:21:00")]).2 h2⟩

theorem sum_map_div (l : List ℚ) (a : ℚ) : (l.map (· / a)).sum = l.sum / a := by
  induction l with
  | nil => simp
  | cons x t ih => simp [ih, add_div]

/-- C1 counterexample: with `hill_preference = 70` (inside `[70,130]`) and an
even split, a single sample of gradient `1/6` (within the `[-0.2, 0.2]`
gradient clamp) has combined multiplier exactly 0, so the mean of the raw
multipliers is 0 and the normalised sequence does not average to 1 (the
division by a zero mean that numpy turns into nan). -/
theorem C1_counterexample_zero_mean :
    (70 : ℚ) ≤ 70 ∧ (70 : ℚ) ≤ 130 ∧
    ([⟨0, 1/6, 0, true, ""⟩] : List Sample) ≠ [] ∧
    npMean (final_multipliers "even" 70 [⟨0, 1/6, 0, true, ""⟩]) ≠ 1 := by
  refine ⟨le_refl _, by norm_num, by simp, ?_⟩
  norm_num [npMean, final_multipliers, raw_multipliers, split_factor, hill_factor,
    k_factor]

/-- C1 (amended): whenever the arithmetic mean of the raw combined
multipliers is nonzero — in particular for every practically occurring
positive multiplier sequence — dividing the sequence by its mean makes the
mean of the result exactly 1, for every split preference and hill
preference. -/
theorem C1_energy_normalization (samples : List Sample) (pref : String) (hill : ℚ)
    (hne : samples ≠ [])
    (hmean : npMean (raw_multipliers pref hill samples) ≠ 0) :
    npMean (final_multipliers pref hill samples) = 1 := by
  rw [final_multipliers, npMean, sum_map_div, List.length_map]
  rw [npMean] at hmean
  rw [div_div, mul_comm, ← div_div]
  exact div_self hmean

theorem C1_energy_normalization_witness :
    ([⟨0, 0, 0, true, ""⟩, ⟨1, 1/100, 90, true, ""⟩] : List Sample) ≠ [] ∧
    npMean (raw_multipliers "positive" 120
      [⟨0, 0, 0, true, ""⟩, ⟨1, 1/100, 90, true, ""⟩]) ≠ 0 ∧
    npMean (final_multipliers "positive" 120
      [⟨0, 0, 0, true, ""⟩, ⟨1, 1/100, 90, true, ""⟩]) = 1 := by
  have h1 : ([⟨0, 0, 0, true, ""⟩, ⟨1, 1/100, 90, true, ""⟩] : List Sample) ≠ [] := by
    simp
  have h2 : npMean (raw_multipliers "positive" 120
      [⟨0, 0, 0, true, ""⟩, ⟨1, 1/100, 90, true, ""⟩]) ≠ 0 := by
    norm_num [npMean, raw_multipliers, split_factor, hill_factor, k_factor]
  exact ⟨h1, h2, C1_energy_normalization _ "positive" 120 h1 h2⟩

theorem getLast?_cons_of_ne {α : Type} (a : α) (l : List α) (h : l ≠ []) :
    (a :: l).getLast? = l.getLast? := by
  cases l with
  | nil => exact absurd rfl h
  | cons b t => exact List.getLast?_cons_cons

theorem segment_bounds_ne_nil (l : List ℚ) (h : l ≠ []) : segment_bounds l ≠ [] := by
  cases l with
  | nil => exact absurd rfl h
  | cons d t =>
    cases t with
    | nil => simp [segment_bounds]
    | cons d2 t2 => simp [segment_bounds]

theorem segment_bounds_getLast (l : List ℚ) (h : l ≠ []) :
    (segment_bounds l).getLast? =
      some ((l.getLast?.getD 0) / 1000, (l.getLast?.getD 0) / 1000 + 0.005) := by
  induction l with
  | nil => exact absurd rfl h
  | cons d t ih =>
    cases t with
    | nil => simp [segment_bounds]
    | cons d2 t2 =>
      rw [segment_bounds,
        getLast?_cons_of_ne _ _ (segment_bounds_ne_nil _ (by simp)),
        ih (by simp), getLast?_cons_of_ne d (d2 :: t2) (by simp)]

theorem arange5_getLast (stop : ℚ) (n : ℕ) (hn : (Int.ceil (stop / 5)).toNat = n + 1) :
    (arange5 stop).getLast? = some (5 * (n : ℚ)) := by
  rw [arange5, hn, List.getLast?_map, List.range_succ, List.getLast?_concat]
  rfl

/-- C6: when the raw track measures more than 40000 m, every cumulative
distance is scaled by the single factor `42195 / total_raw_distance` before
resampling; consequently a raw track measuring 43000 m yields a course whose
last 5 m segment ends exactly at km 42.195 (42195 m), all boundaries scaling
proportionally. -/
theorem C6_course_rescaling (raw : List ℚ) (h : raw.getLast? = some 43000) :
    (∀ (c : List ℚ) (t : ℚ), c.getLast? = some t → 40000 < t →
        scaled_cum_dist c = c.map (· * (42195 / t))) ∧
    scaled_cum_dist raw = raw.map (· * (42195 / 43000)) ∧
    course_total_km raw = 42.195 := by
  have hgen : ∀ (c : List ℚ) (t : ℚ), c.getLast? = some t → 40000 < t →
      scaled_cum_dist c = c.map (· * (42195 / t)) := by
    intro c t hc ht
    rw [scaled_cum_dist, hc]
    simp only [Option.getD_some]
    rw [if_pos ht]
  have hraw : scaled_cum_dist raw = raw.map (· * (42195 / 43000)) :=
    hgen raw 43000 h (by norm_num)
  refine ⟨hgen, hraw, ?_⟩
  have hlast : (scaled_cum_dist raw).getLast? = some 42195 := by
    rw [hraw, List.getLast?_map, h]
    norm_num
  have hgrid : resampled_grid raw = arange5 42195 := by
    rw [resampled_grid, hlast]
    norm_num
  have hceil : (Int.ceil ((42195 : ℚ) / 5)).toNat = 8438 + 1 := by
    have hc : (Int.ceil ((42195 : ℚ) / 5)) = 8439 := by norm_num
    rw [hc]
    decide
  have hglast : (arange5 42195).getLast? = some 42190 := by
    rw [arange5_getLast 42195 8438 hceil]
    norm_num
  have hgne : arange5 (42195 : ℚ) ≠ [] := by
    rw [arange5, hceil]
    simp
  rw [course_total_km, hgrid, segment_bounds_getLast _ hgne, hglast]
  norm_num

theorem C6_course_rescaling_witness :
    ([0, 21500, 43000] : List ℚ).getLast? = some 43000 ∧
    ((∀ (c : List ℚ) (t : ℚ), c.getLast? = some t → 40000 < t →
        scaled_cum_dist c = c.map (· * (42195 / t))) ∧
     scaled_cum_dist [0, 21500, 43000] = List.map (· * (42195 / 43000)) [0, 21500, 43000] ∧
     course_total_km [0, 21500, 43000] = 42.195) :=
  ⟨rfl, C6_course_rescaling [0, 21500, 43000] rfl⟩

theorem sq_mul_npSign (x : ℝ) : x ^ 2 * npSign x = x * |x| := by
  rcases lt_trichotomy x 0 with h | h | h
  · rw [npSign, if_pos h, abs_of_neg h]
    ring
  · rw [h]
    simp [npSign]
  · rw [npSign, if_neg (not_lt.2 h.le), if_neg h.ne.symm, abs_of_pos h]
    ring

theorem power_continuousOn (g w m A : ℝ) :
    ContinuousOn (fun v => calculate_total_power v g w m A) (Set.Icc (0.1 : ℝ) 10) := by
  have hE : Continuous fun v : ℝ =>
      minetti_cost_j_kg_m g * m * v +
        (0.5 * RHO_AIR * DRAG_COEFF * (A * (m / 65) ^ ((2 : ℝ) / 3)) *
            ((v - w) * |v - w|)) * v / 0.25 := by
    fun_prop
  apply hE.continuousOn.congr
  intro v hv
  have hv0 : ¬ v ≤ 0 := not_le.2 (lt_of_lt_of_le (by norm_num) hv.1)
  simp only [calculate_total_power, total_power_with_area, calculate_drag_power_watts,
    mechanical_to_metabolic_power, if_neg hv0]
  rw [← sq_mul_npSign (v - w)]
  ring

/-- C3: `solve_speed_for_power` returns 0.1 whenever the metabolic power
needed at the minimum bracket speed 0.1 m/s already exceeds the target;
returns 0 whenever `brentq` would fail (no sign change over the bracket,
the only `ValueError` the code catches); and in the remaining branch a
root of the power equation exists inside the bracket `[0.1, 10]`, so
`brentq` succeeds: the function never raises. -/
theorem C3_solve_speed_error_handling (P g w m A : ℝ) :
    (P < calculate_total_power 0.1 g w m A →
      solve_speed_for_power P g w m A = SolveOutcome.value 0.1) ∧
    (calculate_total_power 0.1 g w m A ≤ P →
      0 < (calculate_total_power 0.1 g w m A - P) *
            (calculate_total_power 10 g w m A - P) →
      solve_speed_for_power P g w m A = SolveOutcome.value 0) ∧
    (calculate_total_power 0.1 g w m A ≤ P →
      (calculate_total_power 0.1 g w m A - P) *
          (calculate_total_power 10 g w m A - P) ≤ 0 →
      ∃ v, v ∈ Set.Icc (0.1 : ℝ) 10 ∧ calculate_total_power v g w m A = P) := by
  refine ⟨?_, ?_, ?_⟩
  · intro h
    simp only [solve_speed_for_power]
    rw [if_pos (by linarith)]
  · intro h1 h2
    simp only [solve_speed_for_power]
    rw [if_neg (by simp only [not_lt]; linarith), if_pos h2]
  · intro h1 h2
    by_cases heq : calculate_total_power 0.1 g w m A = P
    · exact ⟨0.1, ⟨le_refl _, by norm_num⟩, heq⟩
    · have h01 : calculate_total_power 0.1 g w m A < P := lt_of_le_of_ne h1 heq
      have h10 : P ≤ calculate_total_power 10 g w m A := by
        by_contra hcon
        push_neg at hcon
        nlinarith [mul_pos (sub_pos.2 h01) (sub_pos.2 hcon)]
      have hsub := intermediate_value_Icc (by norm_num : (0.1 : ℝ) ≤ 10)
        (power_continuousOn g w m A)
      obtain ⟨v, hv, hfv⟩ := hsub ⟨h1, h10⟩
      exact ⟨v, hv, hfv⟩

theorem calculate_total_power_cast (v g w : ℚ) :
    calculate_total_power (v : ℝ) (g : ℝ) (w : ℝ) 65 0.4 =
      ((total_power_with_area v g w 65 0.4 : ℚ) : ℝ) := by
  rw [calculate_total_power,
    show ((65 : ℝ) / 65) ^ ((2 : ℝ) / 3) = 1 by norm_num, mul_one,
    show (65 : ℝ) = ((65 : ℚ) : ℝ) by norm_num,
    show (0.4 : ℝ) = ((0.4 : ℚ) : ℝ) by norm_num,
    total_power_with_area_cast]

theorem C3_solve_speed_error_handling_witness :
    ((1 : ℝ) < calculate_total_power 0.1 0 0 65 0.4 ∧
      solve_speed_for_power 1 0 0 65 0.4 = SolveOutcome.value 0.1) ∧
    (calculate_total_power 0.1 0 0 65 0.4 ≤ 10000 ∧
      0 < (calculate_total_power 0.1 0 0 65 0.4 - 10000) *
            (calculate_total_power 10 0 0 65 0.4 - 10000) ∧
      solve_speed_for_power 10000 0 0 65 0.4 = SolveOutcome.value 0) ∧
    (calculate_total_power 0.1 0 0 65 0.4 ≤ 1000 ∧
      (calculate_total_power 0.1 0 0 65 0.4 - 1000) *
          (calculate_total_power 10 0 0 65 0.4 - 1000) ≤ 0 ∧
      ∃ v, v ∈ Set.Icc (0.1 : ℝ) 10 ∧ calculate_total_power v 0 0 65 0.4 = 1000) := by
  have e01 : calculate_total_power 0.1 0 0 65 0.4 =
      ((total_power_with_area (1/10 : ℚ) 0 0 65 0.4 : ℚ) : ℝ) := by
    rw [show (0.1 : ℝ) = ((1/10 : ℚ) : ℝ) by norm_num,
      show (0 : ℝ) = ((0 : ℚ) : ℝ) by norm_num, calculate_total_power_cast]
  have e10 : calculate_total_power 10 0 0 65 0.4 =
      ((total_power_with_area (10 : ℚ) 0 0 65 0.4 : ℚ) : ℝ) := by
    rw [show (10 : ℝ) = ((10 : ℚ) : ℝ) by norm_num,
      show (0 : ℝ) = ((0 : ℚ) : ℝ) by norm_num, calculate_total_power_cast]
  have q01 : total_power_with_area (1/10 : ℚ) 0 0 65 0.4 = 23.400882 := by
    norm_num [total_power_with_area, minetti_cost_j_kg_m, calculate_drag_power_watts,
      mechanical_to_metabolic_power, npSign, RHO_AIR, DRAG_COEFF]
  have q10 : total_power_with_area (10 : ℚ) 0 0 65 0.4 = 3222 := by
    norm_num [total_power_with_area, minetti_cost_j_kg_m, calculate_drag_power_watts,
      mechanical_to_metabolic_power, npSign, RHO_AIR, DRAG_COEFF]
  have h1 : (1 : ℝ) < calculate_total_power 0.1 0 0 65 0.4 := by
    rw [e01, q01]; norm_num
  have h2a : calculate_total_power 0.1 0 0 65 0.4 ≤ 10000 := by
    rw [e01, q01]; norm_num
  have h2b : 0 < (calculate_total_power 0.1 0 0 65 0.4 - 10000) *
      (calculate_total_power 10 0 0 65 0.4 - 10000) := by
    rw [e01, q01, e10, q10]; norm_num
  have h3a : calculate_total_power 0.1 0 0 65 0.4 ≤ 1000 := by
    rw [e01, q01]; norm_num
  have h3b : (calculate_total_power 0.1 0 0 65 0.4 - 1000) *
      (calculate_total_power 10 0 0 65 0.4 - 1000) ≤ 0 := by
    rw [e01, q01, e10, q10]; norm_num
  exact ⟨⟨h1, (C3_solve_speed_error_handling 1 0 0 65 0.4).1 h1⟩,
    ⟨h2a, h2b, (C3_solve_speed_error_handling 10000 0 0 65 0.4).2.1 h2a h2b⟩,
    ⟨h3a, h3b, (C3_solve_speed_error_handling 1000 0 0 65 0.4).2.2 h3a h3b⟩⟩

/-- C5 counterexample: in the spec scenario (`wind_speed=5`,
`wind_from_degrees=0`, exposed sample with `bearing=180`) the effective
parallel wind the code computes is `5·cos(radians(0+180−180)) = +5` — a
tailwind, not the claimed strongly negative headwind. -/
theorem C5_counterexample_tailwind_not_headwind :
    effective_wind 5 0 180 true = 5 ∧ ¬ effective_wind 5 0 180 true < 0 := by
  have h : effective_wind 5 0 180 true = 5 := by
    simp only [effective_wind, radians, if_pos]
    norm_num
  exact ⟨h, by rw [h]; norm_num⟩

theorem tailwind_root_dominates (m c u v : ℝ) (hm : 0 < m) (hc : 0 < c)
    (hu : 0 < u) (hv : 0 < v)
    (h : total_power_with_area u 0 0 m c ≤ total_power_with_area v 0 5 m c) :
    u < v := by
  by_contra hcon
  push_neg at hcon
  apply absurd h
  push_neg
  have hsu : npSign (u - 0) = 1 := by
    have h0 : (0 : ℝ) < u - 0 := by linarith
    rw [npSign, if_neg (not_lt.2 h0.le), if_neg h0.ne.symm]
  simp only [total_power_with_area, calculate_drag_power_watts,
    mechanical_to_metabolic_power, minetti_cost_j_kg_m, RHO_AIR, DRAG_COEFF,
    if_neg (not_le.2 hv), if_neg (not_le.2 hu), hsu]
  rcases lt_trichotomy (v - 5) 0 with h5 | h5 | h5
  · rw [npSign, if_pos h5]
    norm_num
    nlinarith [mul_pos (mul_pos (mul_pos hc hu) hu) hu,
      mul_nonneg (mul_nonneg hc.le (sq_nonneg (v - 5))) hv.le,
      mul_nonneg hm.le (sub_nonneg.2 hcon)]
  · rw [npSign, if_neg (by rw [h5]; exact lt_irrefl 0), if_pos h5]
    norm_num
    nlinarith [mul_pos (mul_pos (mul_pos hc hu) hu) hu,
      mul_nonneg hm.le (sub_nonneg.2 hcon)]
  · rw [npSign, if_neg (not_lt.2 h5.le), if_neg h5.ne.symm]
    have hv5 : v - 5 < u := by linarith
    have ha1 : (v - 5) ^ 2 < u ^ 2 := by nlinarith
    have hq : (v - 5) ^ 2 * v < u ^ 2 * u :=
      lt_of_lt_of_le (mul_lt_mul_of_pos_right ha1 hv)
        (mul_le_mul_of_nonneg_left hcon (sq_nonneg u))
    norm_num
    nlinarith [mul_pos hc (sub_pos.2 hq), mul_nonneg hm.le (sub_nonneg.2 hcon)]

/-- C5 (amended): the effective parallel wind equals
`wind_speed · cos(radians((wind_from_degrees+180) − bearing))` for an exposed
sample and 0 for an unexposed one; in the scenario `wind_speed=5`,
`wind_from_degrees=0`, an exposed sample with `bearing=180` receives a
strongly **positive** effective wind (+5, a tailwind), and any speed whose
required power under that tailwind reaches the no-wind target is strictly
**faster** than the speed solved for the identical unexposed sample. -/
theorem C5_effective_wind_scenario :
    (∀ ws wd b : ℝ,
      effective_wind ws wd b true = ws * Real.cos (radians (wd + 180 - b)) ∧
      effective_wind ws wd b false = 0) ∧
    effective_wind 5 0 180 true = 5 ∧
    effective_wind 5 0 180 false = 0 ∧
    (∀ m A u v : ℝ, 0 < m → 0 < A → 0 < u → 0 < v →
      calculate_total_power u 0 (effective_wind 5 0 180 false) m A ≤
        calculate_total_power v 0 (effective_wind 5 0 180 true) m A →
      u < v) := by
  have hforms : ∀ ws wd b : ℝ,
      effective_wind ws wd b true = ws * Real.cos (radians (wd + 180 - b)) ∧
      effective_wind ws wd b false = 0 := by
    intro ws wd b
    exact ⟨rfl, rfl⟩
  have hw5 : effective_wind 5 0 180 true = 5 := by
    simp only [effective_wind, radians, if_pos]
    norm_num
  have hw0 : effective_wind 5 0 180 false = 0 := rfl
  refine ⟨hforms, hw5, hw0, ?_⟩
  intro m A u v hm hA hu hv h
  rw [hw5, hw0] at h
  have harea : 0 < A * (m / 65) ^ ((2 : ℝ) / 3) :=
    mul_pos hA (Real.rpow_pos_of_pos (div_pos hm (by norm_num)) _)
  exact tailwind_root_dominates m (A * (m / 65) ^ ((2 : ℝ) / 3)) u v hm harea hu hv h

theorem C5_effective_wind_scenario_witness :
    effective_wind 5 0 180 true = 5 ∧
    (0 : ℝ) < 65 ∧ (0 : ℝ) < 0.4 ∧ (0 : ℝ) < 3 ∧ (0 : ℝ) < 4 ∧
    calculate_total_power 3 0 (effective_wind 5 0 180 false) 65 0.4 ≤
      calculate_total_power 4 0 (effective_wind 5 0 180 true) 65 0.4 ∧
    (3 : ℝ) < 4 := by
  have hf := C5_effective_wind_scenario
  have hle : calculate_total_power 3 0 (effective_wind 5 0 180 false) 65 0.4 ≤
      calculate_total_power 4 0 (effective_wind 5 0 180 true) 65 0.4 := by
    rw [hf.2.1, hf.2.2.1]
    rw [show (3 : ℝ) = ((3 : ℚ) : ℝ) by norm_num,
      show (4 : ℝ) = ((4 : ℚ) : ℝ) by norm_num,
      show (0 : ℝ) = ((0 : ℚ) : ℝ) by norm_num,
      show (5 : ℝ) = ((5 : ℚ) : ℝ) by norm_num,
      calculate_total_power_cast, calculate_total_power_cast]
    norm_num [total_power_with_area, minetti_cost_j_kg_m, calculate_drag_power_watts,
      mechanical_to_metabolic_power, npSign, RHO_AIR, DRAG_COEFF]
  exact ⟨hf.2.1, by norm_num, by norm_num, by norm_num, by norm_num, hle,
    hf.2.2.2 65 0.4 3 4 (by norm_num) (by norm_num) (by norm_num) (by norm_num) hle⟩

theorem insertOn_of_le {α : Type} (key : α → ℚ) (a : α) (l : List α)
    (h : ∀ b ∈ l, key a ≤ key b) : insertOn key a l = a :: l := by
  cases l with
  | nil => rfl
  | cons b t => rw [insertOn, if_pos (h b (List.mem_cons_self b t))]

theorem sortOn_of_sorted {α : Type} (key : α → ℚ) (l : List α)
    (h : l.Pairwise fun x y => key x ≤ key y) : sortOn key l = l := by
  induction l with
  | nil => rfl
  | cons a t ih =>
    rw [List.pairwise_cons] at h
    rw [sortOn, ih h.2, insertOn_of_le key a t h.1]

theorem insertOn_of_gt {α : Type} (key : α → ℚ) (a : α) (l : List α)
    (h : ∀ b ∈ l, key b < key a) : insertOn key a l = l ++ [a] := by
  induction l with
  | nil => rfl
  | cons b t ih =>
    rw [insertOn, if_neg (not_le.2 (h b (List.mem_cons_self b t))),
      ih fun x hx => h x (List.mem_cons_of_mem b hx), List.cons_append]

theorem sortOn_of_rev_sorted {α : Type} (key : α → ℚ) (l : List α)
    (h : l.Pairwise fun x y => key y < key x) : sortOn key l = l.reverse := by
  induction l with
  | nil => rfl
  | cons a t ih =>
    rw [List.pairwise_cons] at h
    rw [sortOn, ih h.2, insertOn_of_gt key a t.reverse
      (fun b hb => h.1 b (List.mem_reverse.1 hb)), List.reverse_cons]

theorem interpP_single (x : ℚ) (p : ℚ × ℚ) : interpP x [p] = p.2 := rfl

theorem interpP_cons_cons (x : ℚ) (p q : ℚ × ℚ) (rest : List (ℚ × ℚ)) :
    interpP x (p :: q :: rest) =
      if x ≤ p.1 then p.2
      else if x ≤ q.1 then p.2 + (q.2 - p.2) * (x - p.1) / (q.1 - p.1)
      else interpP x (q :: rest) := rfl

theorem interp_le_head (x : ℚ) (p : ℚ × ℚ) (l : List (ℚ × ℚ))
    (hs : (p :: l).Pairwise fun r s => r.1 < s.1 ∧ s.2 < r.2)
    (hx : p.1 ≤ x) : interpP x (p :: l) ≤ p.2 := by
  induction l generalizing p with
  | nil => rw [interpP_single]
  | cons q rest ih =>
    rw [interpP_cons_cons]
    rw [List.pairwise_cons] at hs
    have hpq := hs.1 q (List.mem_cons_self q rest)
    by_cases h1 : x ≤ p.1
    · rw [if_pos h1]
    · rw [if_neg h1]
      by_cases h2 : x ≤ q.1
      · rw [if_pos h2]
        have hden : 0 < q.1 - p.1 := sub_pos.2 hpq.1
        have hdiv : (q.2 - p.2) * (x - p.1) / (q.1 - p.1) ≤ 0 := by
          rw [div_nonpos_iff]
          right
          exact ⟨by nlinarith [hpq.2], hden.le⟩
        linarith
      · rw [if_neg h2]
        push_neg at h2
        have := ih q hs.2 h2.le
        linarith [hpq.2]

theorem interp_skip (y : ℚ) (a : ℚ × ℚ) (T : List (ℚ × ℚ)) :
    ∀ (L : List (ℚ × ℚ)), (∀ r ∈ L, r.1 < a.1) → a.1 ≤ y →
    interpP y (L ++ a :: T) = interpP y (a :: T) := by
  intro L
  induction L with
  | nil => intro _ _; rfl
  | cons r L2 ih =>
    intro hL ha
    have hr : r.1 < a.1 := hL r (List.mem_cons_self r L2)
    cases L2 with
    | nil =>
      cases T with
      | nil =>
        simp only [List.nil_append, List.cons_append]
        rw [interpP_cons_cons, interpP_single,
          if_neg (not_le.2 (lt_of_lt_of_le hr ha))]
        by_cases hya : y ≤ a.1
        · have hy : y = a.1 := le_antisymm hya ha
          have hne : a.1 - r.1 ≠ 0 := sub_ne_zero.2 hr.ne'
          rw [if_pos hya, hy]
          field_simp
        · rw [if_neg hya]
      | cons p2 T2 =>
        simp only [List.nil_append, List.cons_append]
        rw [interpP_cons_cons]
        rw [if_neg (not_le.2 (lt_of_lt_of_le hr ha))]
        by_cases hya : y ≤ a.1
        · have hy : y = a.1 := le_antisymm hya ha
          have hne : a.1 - r.1 ≠ 0 := sub_ne_zero.2 hr.ne'
          rw [if_pos hya, hy, interpP_cons_cons, if_pos (le_refl a.1)]
          field_simp
        · rw [if_neg hya]
    | cons r2 L3 =>
      have hr2 : r2.1 < a.1 := hL r2 (List.mem_cons_of_mem r (List.mem_cons_self r2 L3))
      simp only [List.cons_append]
      rw [interpP_cons_cons,
        if_neg (not_le.2 (lt_of_lt_of_le hr ha)),
        if_neg (not_le.2 (lt_of_lt_of_le hr2 ha))]
      have := ih (fun s hs => hL s (List.mem_cons_of_mem r hs)) ha
      simpa only [List.cons_append] using this

theorem interp_drop_last (y : ℚ) (b c : ℚ × ℚ) :
    ∀ (W : List (ℚ × ℚ)), y ≤ b.1 →
    interpP y ((W ++ [b]) ++ [c]) = interpP y (W ++ [b]) := by
  intro W
  induction W with
  | nil =>
    intro hy
    show interpP y [b, c] = interpP y [b]
    rw [interpP_cons_cons, if_pos hy, interpP_single]
  | cons r W2 ih =>
    intro hy
    cases W2 with
    | nil =>
      show interpP y [r, b, c] = interpP y [r, b]
      simp only [interpP_cons_cons, interpP_single]
      split_ifs <;> rfl
    | cons r2 W3 =>
      simp only [List.cons_append]
      rw [interpP_cons_cons, interpP_cons_cons]
      by_cases h1 : y ≤ r.1
      · rw [if_pos h1, if_pos h1]
      · rw [if_neg h1, if_neg h1]
        by_cases h2 : y ≤ r2.1
        · rw [if_pos h2, if_pos h2]
        · rw [if_neg h2, if_neg h2]
          have := ih hy
          simpa only [List.cons_append] using this

theorem interp_roundtrip (x : ℚ) :
    ∀ (rest : List (ℚ × ℚ)) (p : ℚ × ℚ),
    (p :: rest).Pairwise (fun r s => r.1 < s.1 ∧ s.2 < r.2) →
    p.1 ≤ x → x ≤ (((p :: rest).getLast?.map Prod.fst).getD 0) →
    interpP (interpP x (p :: rest)) (((p :: rest).map Prod.swap).reverse) = x := by
  intro rest
  induction rest with
  | nil =>
    intro p _ hlo hhi
    have hx : x = p.1 := le_antisymm (by simpa using hhi) hlo
    subst hx
    rw [interpP_single]
    simp only [List.map_cons, List.map_nil, List.reverse_cons, List.reverse_nil,
      List.nil_append]
    rw [interpP_single]
    rfl
  | cons q rest ih =>
    intro p hs hlo hhi
    rw [List.pairwise_cons] at hs
    have hpq := hs.1 q (List.mem_cons_self q rest)
    have hback : ((p :: q :: rest).map Prod.swap).reverse =
        ((rest.map Prod.swap).reverse ++ [(q.2, q.1)]) ++ [(p.2, p.1)] := by
      simp [List.reverse_cons]
      exact ⟨rfl, rfl⟩
    have hden : 0 < q.1 - p.1 := sub_pos.2 hpq.1
    have hnum : q.2 - p.2 < 0 := sub_neg.2 hpq.2
    by_cases hq : x ≤ q.1
    · have hval : interpP x (p :: q :: rest) =
          p.2 + (q.2 - p.2) * (x - p.1) / (q.1 - p.1) := by
        rw [interpP_cons_cons]
        by_cases h1 : x ≤ p.1
        · have hx : x = p.1 := le_antisymm h1 hlo
          rw [if_pos h1, hx]
          field_simp
        · rw [if_neg h1, if_pos hq]
      rw [hval, hback]
      set y := p.2 + (q.2 - p.2) * (x - p.1) / (q.1 - p.1) with hydef
      have hy1 : q.2 ≤ y := by
        rw [hydef, ← sub_le_iff_le_add', le_div_iff₀ hden]
        nlinarith [mul_nonneg (by linarith : (0 : ℚ) ≤ p.2 - q.2)
          (by linarith : (0 : ℚ) ≤ q.1 - x)]
      have hy2 : y ≤ p.2 := by
        have hpos : (q.2 - p.2) * (x - p.1) / (q.1 - p.1) ≤ 0 := by
          rw [div_nonpos_iff]
          right
          refine ⟨?_, hden.le⟩
          nlinarith [mul_nonneg (by linarith : (0 : ℚ) ≤ p.2 - q.2)
            (by linarith : (0 : ℚ) ≤ x - p.1)]
        rw [hydef]
        linarith
      have hassoc : ((rest.map Prod.swap).reverse ++ [(q.2, q.1)]) ++ [(p.2, p.1)] =
          (rest.map Prod.swap).reverse ++ ((q.2, q.1) :: [(p.2, p.1)]) := by
        simp
      rw [hassoc, interp_skip y (q.2, q.1) [(p.2, p.1)] ((rest.map Prod.swap).reverse)
        ?_ hy1]
      · rw [interpP_cons_cons]
        by_cases hyq : y ≤ (q.2, q.1).1
        · have hyy : y = q.2 := le_antisymm hyq hy1
          rw [if_pos hyq]
          have h0 : (q.2 - p.2) * (x - p.1) / (q.1 - p.1) = q.2 - p.2 := by
            rw [hydef] at hyy
            linarith
          field_simp at h0
          rcases h0 with h0 | h0
          · show q.1 = x
            exact h0.symm
          · exact absurd h0 hnum.ne
        · rw [if_neg hyq, if_pos (le_trans hy2 (le_refl _))]
          show (q.2, q.1).2 + ((p.2, p.1).2 - (q.2, q.1).2) * (y - (q.2, q.1).1) /
              ((p.2, p.1).1 - (q.2, q.1).1) = x
          rw [hydef]
          have hne2 : p.2 - q.2 ≠ 0 := by
            intro hzero
            exact absurd (by linarith : q.2 = p.2) (by linarith [hpq.2])
          field_simp
          ring
      · intro r hr
        rw [List.mem_reverse, List.mem_map] at hr
        obtain ⟨s, hsmem, rfl⟩ := hr
        have hqs := (List.pairwise_cons.1 hs.2).1 s hsmem
        exact hqs.2
    · push_neg at hq
      have hval : interpP x (p :: q :: rest) = interpP x (q :: rest) := by
        rw [interpP_cons_cons, if_neg (not_le.2 (lt_trans hpq.1 hq)),
          if_neg (not_le.2 hq)]
      have hhi2 : x ≤ (((q :: rest).getLast?.map Prod.fst).getD 0) := by
        rw [List.getLast?_cons_cons] at hhi
        exact hhi
      have hih := ih q hs.2 hq.le hhi2
      have hyb : interpP x (q :: rest) ≤ (q.2, q.1).1 :=
        interp_le_head x q rest hs.2 hq.le
      rw [hval, hback, interp_drop_last _ (q.2, q.1) (p.2, p.1)
        ((rest.map Prod.swap).reverse) hyb]
      have hshape : ((q :: rest).map Prod.swap).reverse =
          (rest.map Prod.swap).reverse ++ [(q.2, q.1)] := by
        simp [List.reverse_cons]
        rfl
      rw [← hshape]
      exact hih

/-- C9: for a table stored capability-ascending whose marathon times are
strictly decreasing in capability, composing index-to-time interpolation
with time-to-index interpolation is the identity (exact, hence within any
interpolation tolerance) for every capability inside the table's range. -/
theorem C9_interpolation_roundtrip (table : List (ℚ × ℚ)) (x : ℚ)
    (hs : table.Pairwise fun p q => p.1 < q.1 ∧ q.2 < p.2)
    (hne : table ≠ [])
    (hlo : (table.head?.map Prod.fst).getD 0 ≤ x)
    (hhi : x ≤ (table.getLast?.map Prod.fst).getD 0) :
    get_exact_vdot_from_time table (get_time_for_exact_vdot table x) = x := by
  obtain ⟨p, rest, rfl⟩ := List.exists_cons_of_ne_nil hne
  have hmap : ((p :: rest).map Prod.swap).Pairwise fun a b => Prod.fst b < Prod.fst a := by
    rw [List.pairwise_map]
    exact hs.imp fun h => h.2
  rw [get_time_for_exact_vdot, get_exact_vdot_from_time,
    sortOn_of_sorted Prod.fst _ (hs.imp fun h => h.1.le),
    sortOn_of_rev_sorted Prod.fst _ hmap]
  exact interp_roundtrip x rest p hs (by simpa using hlo) hhi

theorem C9_interpolation_roundtrip_witness :
    ([(30, 14400), (40, 12000), (60, 8000)] : List (ℚ × ℚ)).Pairwise
      (fun p q => p.1 < q.1 ∧ q.2 < p.2) ∧
    ([(30, 14400), (40, 12000), (60, 8000)] : List (ℚ × ℚ)) ≠ [] ∧
    ((([(30, 14400), (40, 12000), (60, 8000)] : List (ℚ × ℚ)).head?.map
        Prod.fst).getD 0 ≤ 35) ∧
    ((35 : ℚ) ≤ (([(30, 14400), (40, 12000), (60, 8000)] : List (ℚ × ℚ)).getLast?.map
        Prod.fst).getD 0) ∧
    get_exact_vdot_from_time [(30, 14400), (40, 12000), (60, 8000)]
      (get_time_for_exact_vdot [(30, 14400), (40, 12000), (60, 8000)] 35) = 35 := by
  have h1 : ([(30, 14400), (40, 12000), (60, 8000)] : List (ℚ × ℚ)).Pairwise
      (fun p q => p.1 < q.1 ∧ q.2 < p.2) := by
    norm_num [List.pairwise_cons]
  have h2 : ([(30, 14400), (40, 12000), (60, 8000)] : List (ℚ × ℚ)) ≠ [] := by simp
  have h3 : ((([(30, 14400), (40, 12000), (60, 8000)] : List (ℚ × ℚ)).head?.map
      Prod.fst).getD 0 ≤ 35) := by norm_num
  have h4 : ((35 : ℚ) ≤ (([(30, 14400), (40, 12000), (60, 8000)] :
      List (ℚ × ℚ)).getLast?.map Prod.fst).getD 0) := by norm_num
  exact ⟨h1, h2, h3, h4,
    C9_interpolation_roundtrip [(30, 14400), (40, 12000), (60, 8000)] 35 h1 h2 h3 h4⟩

end MarathonSim
